import Mathlib

/-!
Shallow embedding of the pinboard-opener browser extension
(`src/eventPage.ts`), for checking its natural-language specification.

The extension state that the code reads and writes through
`chrome.storage.local` is modelled as an explicit `Store` record with the
two keys the code uses (`pinboard` and `pinboardUpdated`); a key that was
never written is `none`, mirroring `undefined`.  Network effects are
modelled by passing the remote responses as explicit arguments
(`FetchOutcome` for the full refetch, the list of `result_code` strings
for the mark-read batch).  Promise resolution versus rejection is a
`Bool` (or `Except`) in each operation result.
-/

set_option linter.unusedVariables false

/-- Bookmark record, from the `Bookmark` type in `eventPage.ts`. -/
structure Bookmark where
  href : String
  description : String
  toread : String
deriving DecidableEq

/-- Default bookmark value used for out-of-range reads in the heap model. -/
def defaultBookmark : Bookmark :=
  { href := "", description := "", toread := "" }

/-- The two `chrome.storage.local` keys the code uses.  `none` models a key
that was never written (`undefined` in the callback data). -/
structure Store where
  pinboard : Option (List Bookmark)
  pinboardUpdated : Option String
deriving DecidableEq

/-- TAB_COUNT constant from line 1 of `eventPage.ts`. -/
def TAB_COUNT : Nat := 10

/-- getLocalBookmarks: resolves with whatever is under the `pinboard` key,
`undefined` (here `none`) included. -/
def getLocalBookmarks (store : Store) : Option (List Bookmark) :=
  store.pinboard

/-- filterUnread from `eventPage.ts`:
`bookmarks.filter(item => item.toread === "yes")`. -/
def filterUnread (bookmarks : List Bookmark) : List Bookmark :=
  bookmarks.filter (fun item => item.toread == "yes")

/-- Badge rendering state set by `chrome.browserAction.setBadgeText` and
`setBadgeBackgroundColor`. -/
structure Badge where
  text : String
  color : String
deriving DecidableEq

/-- Core of updateBadgeCount, once the stored list has been read:
`String(count > 0 ? count : "")` and the fixed background color. -/
def updateBadgeCount (bookmarks : List Bookmark) : Badge :=
  let count := (filterUnread bookmarks).length
  { text := if count > 0 then toString count else "", color := "#000" }

/-- updateBadgeCount as run against the store: when the `pinboard` key is
missing, `filterUnread(undefined)` throws a TypeError, modelled as `none`. -/
def updateBadgeCountRun (store : Store) : Option Badge :=
  (getLocalBookmarks store).map updateBadgeCount

/-- shouldFetchNew, with the remote `update_time` passed in explicitly.
Returns the resolved Boolean, the store after the call, and the number of
writes performed on the `pinboardUpdated` key (the code calls
`setOldUpdatedTime` exactly once in the differ branch, never otherwise). -/
def shouldFetchNew (newUpdated : String) (store : Store) :
    Bool × Store × Nat :=
  if store.pinboardUpdated ≠ some newUpdated then
    (true, { store with pinboardUpdated := some newUpdated }, 1)
  else
    (false, store, 0)

/-- Outcome of the remote `posts/all` request made by fetchNew. -/
inductive FetchOutcome where
  | success : List Bookmark → FetchOutcome
  | failure : FetchOutcome
deriving DecidableEq

/-- fetchNew: on success overwrites the `pinboard` key with the response
body; on a network or parse error rejects, leaving the store unchanged. -/
def fetchNew (outcome : FetchOutcome) (store : Store) : Except Store Store :=
  match outcome with
  | .success data => .ok { store with pinboard := some data }
  | .failure => .error store

/-- updateData: awaits shouldFetchNew, then fetchNew when it returned true.
`.error` carries the store at the moment of rejection. -/
def updateData (newUpdated : String) (outcome : FetchOutcome)
    (store : Store) : Except Store Store :=
  match shouldFetchNew newUpdated store with
  | (true, st1, _) => fetchNew outcome st1
  | (false, st1, _) => .ok st1

/-- The store after an operation, whether it resolved or rejected. -/
def resultingStore : Except Store Store → Store
  | .ok st => st
  | .error st => st

/-- JS `Array.prototype.findIndex` restricted to the predicate the code
uses: `item => item.description === d`.  `none` models the -1 result. -/
def findIndexByDescription : List Bookmark → String → Option Nat
  | [], _ => none
  | b :: bs, d =>
    if b.description = d then some 0
    else (findIndexByDescription bs d).map (· + 1)

/-- In-place update `bookmarksCopy[index].toread = "no"` at a given index. -/
def markAt : List Bookmark → Nat → List Bookmark
  | [], _ => []
  | b :: bs, 0 => { b with toread := "no" } :: bs
  | b :: bs, n + 1 => b :: markAt bs n

/-- One iteration of the local mark-read loop: find the first entry whose
description matches and set its toread to "no".  `none` models the
TypeError thrown when findIndex returned -1. -/
def markOne (acc : List Bookmark) (d : String) : Option (List Bookmark) :=
  match findIndexByDescription acc d with
  | some i => some (markAt acc i)
  | none => none

/-- The whole local mark-read loop over readBookmarks, as run on the cloned
list.  The Bool is false when an iteration threw (findIndex gave -1), in
which case the returned list is the state reached so far and the store
write below it never happens. -/
def applyMarks : List Bookmark → List Bookmark → List Bookmark × Bool
  | acc, [] => (acc, true)
  | acc, rb :: rest =>
    match markOne acc rb.description with
    | some acc2 => applyMarks acc2 rest
    | none => (acc, false)

/-- markBookmarksRead from `eventPage.ts`, with the remote `result_code`
strings of the batch passed in explicitly.  Returns (resolved?, store
after the call, the bookmarks for which a remote call was issued).

Fidelity notes, matching the source line by line: one remote call is
created per element of readBookmarks; when any response code differs from
"done" the promise is rejected, but since the `reject(...)` is not
followed by a return, the code still clones the list, marks it, and calls
`setLocalBookmarks` on it; only a thrown TypeError in the marking loop
(findIndex returning -1) prevents the store write. -/
def markBookmarksRead (responses : List String)
    (bookmarks readBookmarks : List Bookmark) (store : Store) :
    Bool × Store × List Bookmark :=
  let calls := readBookmarks
  let anyFailed := (responses.filter (fun res => res != "done")).length != 0
  let marked := applyMarks bookmarks readBookmarks
  if marked.2 then
    (!anyFailed, { store with pinboard := some marked.1 }, calls)
  else
    (false, store, calls)

/-- Pointwise form of the local mark-read update: an entry is flipped to
read exactly when its description occurs among the given descriptions. -/
def markedIfSelected (ds : List String) (b : Bookmark) : Bookmark :=
  if b.description ∈ ds then { b with toread := "no" } else b

/-- User-visible notifications posted by handleClick. -/
inductive Notification where
  | noUnread : Notification
  | openingTabs : Nat → Notification
deriving DecidableEq

/-- Observable outcome of one invocation of handleClick. -/
structure ClickResult where
  notifications : List Notification
  tabsOpened : List String
  markReadCalls : List Bookmark
  resolved : Bool
  store : Store
deriving DecidableEq

/-- handleClick from `eventPage.ts`: updateData, read the cache, filter
unread, stop when none, truncate to TAB_COUNT, notify, open one tab per
selected bookmark, then markBookmarksRead on exactly that subset.
`none` models the TypeError thrown by `filterUnread(undefined)` when the
`pinboard` key is still unset at the read; a rejection of updateData or of
markBookmarksRead makes the whole async function reject
(`resolved := false`). -/
def handleClick (newUpdated : String) (outcome : FetchOutcome)
    (responses : List String) (store : Store) : Option ClickResult :=
  match updateData newUpdated outcome store with
  | .error st =>
    some { notifications := [], tabsOpened := [], markReadCalls := [],
           resolved := false, store := st }
  | .ok st1 =>
    match st1.pinboard with
    | none => none
    | some bookmarks =>
      let unreadBookmarks := filterUnread bookmarks
      if unreadBookmarks.length = 0 then
        some { notifications := [Notification.noUnread], tabsOpened := [],
               markReadCalls := [], resolved := true, store := st1 }
      else
        let truncatedUnreadBookmarks := unreadBookmarks.take TAB_COUNT
        let res := markBookmarksRead responses bookmarks
          truncatedUnreadBookmarks st1
        some { notifications :=
                 [Notification.openingTabs truncatedUnreadBookmarks.length],
               tabsOpened := truncatedUnreadBookmarks.map Bookmark.href,
               markReadCalls := res.2.2,
               resolved := res.1,
               store := res.2.1 }

/-!
Heap model of markBookmarksRead, refining the value-level model above with
JavaScript object identity: bookmark objects and arrays live in cells of a
heap, arguments are passed as array references, and
`JSON.parse(JSON.stringify(bookmarks))` is an allocation of fresh object
cells plus a fresh array cell.  The in-place writes of the marking loop
are `List.set` on the object cells.
-/

/-- A JavaScript heap restricted to what markBookmarksRead touches:
bookmark object cells and array cells (arrays hold object references). -/
structure JSHeap where
  objects : List Bookmark
  arrays : List (List Nat)
deriving DecidableEq

/-- Read an object cell. -/
def JSHeap.readObj (h : JSHeap) (r : Nat) : Bookmark :=
  h.objects.getD r defaultBookmark

/-- Read an array cell. -/
def JSHeap.readArr (h : JSHeap) (r : Nat) : List Nat :=
  h.arrays.getD r []

/-- findIndex over an array of object references, returning the matching
reference itself (`bookmarksCopy[index]` is that same object). -/
def findRefByDescription (objs : List Bookmark) :
    List Nat → String → Option Nat
  | [], _ => none
  | r :: rs, d =>
    if (objs.getD r defaultBookmark).description = d then some r
    else findRefByDescription objs rs d

/-- The marking loop over the readBookmarks references: each iteration
reads the description of the argument object, finds the matching object in
the cloned array, and writes its toread field in place.  The Bool is false
when findIndex gave -1 and the iteration threw. -/
def markLoop (copyRefs : List Nat) :
    List Bookmark → List Nat → List Bookmark × Bool
  | objs, [] => (objs, true)
  | objs, rb :: rest =>
    match findRefByDescription objs copyRefs
        ((objs.getD rb defaultBookmark).description) with
    | some r =>
      markLoop copyRefs
        (objs.set r { objs.getD r defaultBookmark with toread := "no" }) rest
    | none => (objs, false)

/-- markBookmarksRead over the heap model: `bArr` and `rArr` are the array
references passed for bookmarks and readBookmarks.  The deep clone
allocates one fresh object cell per entry of the bookmarks array and a
fresh array cell of those references; the marking loop then mutates only
the clone.  Result: (resolved?, heap after the call, store after). -/
def markBookmarksReadHeap (responses : List String) (bArr rArr : Nat)
    (h : JSHeap) (store : Store) : Bool × JSHeap × Store :=
  let bookmarkRefs := h.readArr bArr
  let readRefs := h.readArr rArr
  let anyFailed := (responses.filter (fun res => res != "done")).length != 0
  let copyRefs := List.range' h.objects.length bookmarkRefs.length
  let objs1 := h.objects ++
    bookmarkRefs.map (fun r => h.objects.getD r defaultBookmark)
  let ml := markLoop copyRefs objs1 readRefs
  let h2 : JSHeap := { objects := ml.1, arrays := h.arrays ++ [copyRefs] }
  let resolved := ml.2 && !anyFailed
  let store2 :=
    if ml.2 then
      { store with
          pinboard := some (copyRefs.map (fun r => ml.1.getD r defaultBookmark)) }
    else store
  (resolved, h2, store2)

/-- markBookmarksRead of the earlier revision of this file (the unnamed
source `part_000`): there the failure branch is an if/else, so on any
non-"done" response code the promise rejects and the local store write is
skipped entirely. -/
def markBookmarksRead0 (responses : List String)
    (bookmarks readBookmarks : List Bookmark) (store : Store) :
    Bool × Store :=
  let anyFailed := (responses.filter (fun res => res != "done")).length != 0
  if anyFailed then
    (false, store)
  else
    let marked := applyMarks bookmarks readBookmarks
    if marked.2 then
      (true, { store with pinboard := some marked.1 })
    else
      (false, store)

/-!
Concrete data used by the closed evaluation theorems below.
-/

/-- A single unread bookmark. -/
def bEx : Bookmark := { href := "https://e.com/a", description := "a", toread := "yes" }

/-- Store holding just `bEx`. -/
def stEx : Store := { pinboard := some [bEx], pinboardUpdated := some "t0" }

/-- First of two bookmarks sharing one description. -/
def bDup1 : Bookmark := { href := "https://e.com/1", description := "d", toread := "yes" }

/-- Second of two bookmarks sharing one description. -/
def bDup2 : Bookmark := { href := "https://e.com/2", description := "d", toread := "yes" }

/-- Store holding the two duplicate-description bookmarks. -/
def stDup : Store := { pinboard := some [bDup1, bDup2], pinboardUpdated := some "t0" }

/-- Shorthand for building a bookmark from three strings. -/
def mkB (h d t : String) : Bookmark := { href := h, description := d, toread := t }

/-- A 15-element list with 12 unread entries (positions 1 to 12) and
pairwise distinct descriptions. -/
def list15 : List Bookmark :=
  [mkB "h01" "d01" "yes", mkB "h02" "d02" "yes", mkB "h03" "d03" "yes",
   mkB "h04" "d04" "yes", mkB "h05" "d05" "yes", mkB "h06" "d06" "yes",
   mkB "h07" "d07" "yes", mkB "h08" "d08" "yes", mkB "h09" "d09" "yes",
   mkB "h10" "d10" "yes", mkB "h11" "d11" "yes", mkB "h12" "d12" "yes",
   mkB "h13" "d13" "no", mkB "h14" "d14" "no", mkB "h15" "d15" "no"]

/-- Store holding `list15`. -/
def store15 : Store := { pinboard := some list15, pinboardUpdated := some "t0" }

/-- A 15-element list with 12 unread entries in which the read entry at
position 1 and the unread entry at position 2 share the description
"dup". -/
def list15dup : List Bookmark :=
  [mkB "h01" "dup" "no", mkB "h02" "dup" "yes", mkB "h03" "d03" "yes",
   mkB "h04" "d04" "yes", mkB "h05" "d05" "yes", mkB "h06" "d06" "yes",
   mkB "h07" "d07" "yes", mkB "h08" "d08" "yes", mkB "h09" "d09" "yes",
   mkB "h10" "d10" "yes", mkB "h11" "d11" "yes", mkB "h12" "d12" "yes",
   mkB "h13" "d13" "yes", mkB "h14" "d14" "no", mkB "h15" "d15" "no"]

/-- Store holding `list15dup`. -/
def store15dup : Store := { pinboard := some list15dup, pinboardUpdated := some "t0" }

/-- Heap for the argument-preservation witness: two bookmark objects, the
bookmarks array referencing both, the readBookmarks array referencing the
second. -/
def heapEx : JSHeap := { objects := [bDup1, bEx], arrays := [[0, 1], [1]] }

/-- Store whose `pinboard` key was never written. -/
def stNone : Store := { pinboard := none, pinboardUpdated := some "t0" }

/-- One iteration of the local mark-read loop as a pointwise map: flip the
entry whose description equals `d`. -/
def markIfEq (d : String) (b : Bookmark) : Bookmark :=
  if b.description = d then { b with toread := "no" } else b

/-!
Helper lemmas.
-/

/-- A map whose function fixes every element of the list is the identity. -/
theorem map_eq_self_of_fixes {l : List Bookmark} {f : Bookmark → Bookmark}
    (h : ∀ b ∈ l, f b = b) : l.map f = l := by
  rw [List.map_congr_left h]
  exact List.map_id' l

/-- markIfEq does not change the description field. -/
theorem markIfEq_description (d : String) (b : Bookmark) :
    (markIfEq d b).description = b.description := by
  unfold markIfEq
  split <;> rfl

/-- markedIfSelected does not change the description field. -/
theorem markedIfSelected_description (ds : List String) (b : Bookmark) :
    (markedIfSelected ds b).description = b.description := by
  unfold markedIfSelected
  split <;> rfl

/-- When no description of the list equals d, markIfEq d is the identity
on the list. -/
theorem map_markIfEq_of_not_mem {l : List Bookmark} {d : String}
    (h : d ∉ l.map Bookmark.description) : l.map (markIfEq d) = l := by
  apply map_eq_self_of_fixes
  intro b hb
  unfold markIfEq
  rw [if_neg]
  intro hc
  exact h (hc ▸ List.mem_map_of_mem Bookmark.description hb)

/-- markOne on a list with pairwise distinct descriptions, for a
description that occurs in the list, flips exactly the matching entry. -/
theorem markOne_eq_of_nodup {l : List Bookmark} {d : String}
    (hn : (l.map Bookmark.description).Nodup)
    (hd : d ∈ l.map Bookmark.description) :
    markOne l d = some (l.map (markIfEq d)) := by
  induction l with
  | nil => simp at hd
  | cons b bs ih =>
    rw [List.map_cons] at hn hd
    by_cases hb : b.description = d
    · have hnotin : d ∉ bs.map Bookmark.description :=
        hb ▸ (List.nodup_cons.mp hn).1
      unfold markOne findIndexByDescription
      rw [if_pos hb]
      simp only [Option.some.injEq]
      show { b with toread := "no" } :: bs = (b :: bs).map (markIfEq d)
      rw [List.map_cons, map_markIfEq_of_not_mem hnotin]
      unfold markIfEq
      rw [if_pos hb]
    · have hd2 : d ∈ bs.map Bookmark.description := by
        rcases List.mem_cons.mp hd with hc | hc
        · exact absurd hc.symm hb
        · exact hc
      have ih2 := ih (List.nodup_cons.mp hn).2 hd2
      unfold markOne at ih2 ⊢
      unfold findIndexByDescription
      rw [if_neg hb]
      cases hfi : findIndexByDescription bs d with
      | none => rw [hfi] at ih2; simp at ih2
      | some i =>
        rw [hfi] at ih2
        simp only [Option.map_some', Option.some.injEq] at ih2 ⊢
        show markAt (b :: bs) (i + 1) = (b :: bs).map (markIfEq d)
        rw [List.map_cons]
        unfold markAt
        rw [ih2]
        congr 1
        unfold markIfEq
        rw [if_neg hb]

/-- applyMarks on a list with pairwise distinct descriptions, when every
selected description occurs in the list, terminates without a TypeError
and flips exactly the matching entries. -/
theorem applyMarks_eq_of_nodup (S : List Bookmark) :
    ∀ acc : List Bookmark,
      (acc.map Bookmark.description).Nodup →
      (∀ s ∈ S, s.description ∈ acc.map Bookmark.description) →
      applyMarks acc S =
        (acc.map (markedIfSelected (S.map Bookmark.description)), true) := by
  induction S with
  | nil =>
    intro acc hn hmem
    unfold applyMarks
    rw [map_eq_self_of_fixes]
    intro b hb
    unfold markedIfSelected
    simp
  | cons s rest ih =>
    intro acc hn hmem
    have h1 := markOne_eq_of_nodup hn (hmem s (List.mem_cons_self s rest))
    have hdesc : (acc.map (markIfEq s.description)).map Bookmark.description =
        acc.map Bookmark.description := by
      rw [List.map_map]
      exact List.map_congr_left fun b _ => markIfEq_description s.description b
    have hn2 : ((acc.map (markIfEq s.description)).map Bookmark.description).Nodup :=
      hdesc ▸ hn
    have hmem2 : ∀ r ∈ rest,
        r.description ∈ (acc.map (markIfEq s.description)).map Bookmark.description :=
      fun r hr => hdesc ▸ hmem r (List.mem_cons_of_mem s hr)
    have ih2 := ih (acc.map (markIfEq s.description)) hn2 hmem2
    have hstep : applyMarks acc (s :: rest) =
        applyMarks (acc.map (markIfEq s.description)) rest := by
      have hm : applyMarks acc (s :: rest) =
          (match markOne acc s.description with
           | some acc2 => applyMarks acc2 rest
           | none => (acc, false)) := rfl
      rw [hm, h1]
    rw [hstep, ih2]
    simp only [Prod.mk.injEq, and_true]
    rw [List.map_map]
    apply List.map_congr_left
    intro b hb
    simp only [Function.comp_apply]
    by_cases hbd : b.description = s.description
    · unfold markIfEq markedIfSelected
      rw [if_pos hbd]
      simp only [List.map_cons, List.mem_cons]
      rw [if_pos (Or.inl hbd)]
      split <;> rfl
    · unfold markIfEq markedIfSelected
      rw [if_neg hbd]
      simp only [List.map_cons, List.mem_cons]
      by_cases hbr : b.description ∈ rest.map Bookmark.description
      · rw [if_pos hbr, if_pos (Or.inr hbr)]
      · rw [if_neg hbr, if_neg (fun hc => hc.elim hbd hbr)]

/-- When every response code is "done" the failure filter is empty. -/
theorem responses_filter_done {responses : List String}
    (hresp : ∀ r ∈ responses, r = "done") :
    responses.filter (fun res => res != "done") = [] := by
  apply List.filter_eq_nil_iff.mpr
  intro r hr
  simp [hresp r hr]

/-- Shared success-path characterization of markBookmarksRead: with
pairwise distinct descriptions, every selected description present, and
all response codes "done", the call resolves and stores the pointwise
marked list. -/
theorem markBookmarksRead_done (B S : List Bookmark)
    (responses : List String) (store : Store)
    (hmem : ∀ s ∈ S, s.description ∈ B.map Bookmark.description)
    (hn : (B.map Bookmark.description).Nodup)
    (hresp : ∀ r ∈ responses, r = "done") :
    markBookmarksRead responses B S store =
      (true,
       { store with
           pinboard :=
             some (B.map (markedIfSelected (S.map Bookmark.description))) },
       S) := by
  have hmarks := applyMarks_eq_of_nodup S B hn hmem
  unfold markBookmarksRead
  rw [responses_filter_done hresp, hmarks]
  rfl

/-- In the earlier revision (`part_000`), a failing response code makes
markBookmarksRead reject with the store untouched: the failure branch is
a real if/else there. -/
theorem markBookmarksRead0_failure_keeps_store (responses : List String)
    (B S : List Bookmark) (store : Store)
    (hfail : ∃ r ∈ responses, r ≠ "done") :
    markBookmarksRead0 responses B S store = (false, store) := by
  obtain ⟨r, hr, hne⟩ := hfail
  have hmem : r ∈ responses.filter (fun res => res != "done") :=
    List.mem_filter.mpr ⟨hr, by simp [hne]⟩
  have hlen : (responses.filter (fun res => res != "done")).length ≠ 0 := by
    intro hc
    rw [List.length_eq_zero] at hc
    rw [hc] at hmem
    exact List.not_mem_nil r hmem
  unfold markBookmarksRead0
  rw [if_pos (by simpa using hlen)]

/-- filterUnread distributes over a map as a filter on the composed
predicate. -/
theorem filterUnread_map (f : Bookmark → Bookmark) (B : List Bookmark) :
    filterUnread (B.map f) =
      (B.filter (fun b => (f b).toread == "yes")).map f := by
  unfold filterUnread
  induction B with
  | nil => rfl
  | cons a l ih =>
    simp only [List.map_cons, List.filter_cons]
    cases h : (f a).toread == "yes" <;> simp [h, ih]

/-- Marking the first k unread entries removes exactly them from the
unread filter: the remaining unread entries are the dropped tail. -/
theorem filterUnread_marked (B : List Bookmark) (k : Nat)
    (hn : (B.map Bookmark.description).Nodup) :
    filterUnread (B.map (markedIfSelected
      (((filterUnread B).take k).map Bookmark.description))) =
    (filterUnread B).drop k := by
  have hUnodup : ((filterUnread B).map Bookmark.description).Nodup :=
    hn.sublist ((List.filter_sublist B).map Bookmark.description)
  have hdisj : ∀ b ∈ (filterUnread B).drop k,
      b.description ∉ ((filterUnread B).take k).map Bookmark.description := by
    intro b hb hc
    have hsplit : (filterUnread B).take k ++ (filterUnread B).drop k =
        filterUnread B := List.take_append_drop k (filterUnread B)
    have : (((filterUnread B).take k).map Bookmark.description ++
        ((filterUnread B).drop k).map Bookmark.description).Nodup := by
      rw [← List.map_append, hsplit]
      exact hUnodup
    exact (List.nodup_append.mp this).2.2 hc
      (List.mem_map_of_mem Bookmark.description hb)
  rw [filterUnread_map]
  have hpred : B.filter
      (fun b => (markedIfSelected
        (((filterUnread B).take k).map Bookmark.description) b).toread == "yes") =
      B.filter (fun b =>
        (decide (b.description ∉
          ((filterUnread B).take k).map Bookmark.description)) &&
        (b.toread == "yes")) := by
    apply List.filter_congr
    intro b hb
    unfold markedIfSelected
    by_cases hbd : b.description ∈
        ((filterUnread B).take k).map Bookmark.description
    · rw [if_pos hbd]
      have hdec : (decide (b.description ∉
          ((filterUnread B).take k).map Bookmark.description)) = false := by
        simp only [decide_not, Bool.not_eq_false', decide_eq_true_eq]
        exact hbd
      rw [hdec, Bool.false_and]
      rfl
    · rw [if_neg hbd]
      have hdec : (decide (b.description ∉
          ((filterUnread B).take k).map Bookmark.description)) = true := by
        simp only [decide_not, Bool.not_eq_true', decide_eq_false_iff_not]
        exact hbd
      rw [hdec, Bool.true_and]
  rw [hpred, ← List.filter_filter]
  have h1 : ((filterUnread B).take k).filter
      (fun b => decide (b.description ∉
        ((filterUnread B).take k).map Bookmark.description)) = [] := by
    apply List.filter_eq_nil_iff.mpr
    intro b hb
    simp only [decide_not, Bool.not_eq_true', decide_eq_false_iff_not,
      Decidable.not_not]
    exact List.mem_map_of_mem Bookmark.description hb
  have h2 : ((filterUnread B).drop k).filter
      (fun b => decide (b.description ∉
        ((filterUnread B).take k).map Bookmark.description)) =
      (filterUnread B).drop k := by
    apply List.filter_eq_self.mpr
    intro b hb
    simpa using hdisj b hb
  have hUfilter : ((filterUnread B).take k ++ (filterUnread B).drop k).filter
      (fun b => decide (b.description ∉
        ((filterUnread B).take k).map Bookmark.description)) =
      (filterUnread B).drop k := by
    rw [List.filter_append, h1, h2, List.nil_append]
  rw [List.take_append_drop] at hUfilter
  show ((filterUnread B).filter _).map _ = _
  rw [hUfilter]
  apply map_eq_self_of_fixes
  intro b hb
  unfold markedIfSelected
  rw [if_neg (hdisj b hb)]

/-!
Claim theorems.
-/

/-- C5: for every bookmark list, filterUnread returns exactly the sublist
of entries whose toread field equals "yes", preserving the original
relative order of those entries.  Stated as: the result is an
order-preserving sublist, all of its entries are unread, and it keeps
every occurrence of every unread entry. -/
theorem filterUnread_exact (l : List Bookmark) :
    List.Sublist (filterUnread l) l ∧
    (∀ b ∈ filterUnread l, b.toread = "yes") ∧
    (∀ b : Bookmark, b.toread = "yes" →
      (filterUnread l).count b = l.count b) := by
  refine ⟨List.filter_sublist l, ?_, ?_⟩
  · intro b hb
    have h := (List.mem_filter.mp hb).2
    simpa using h
  · intro b hb
    exact List.count_filter (by simpa using hb)

/-- Witness for C5 at a concrete list and bookmark. -/
theorem filterUnread_exact_witness :
    (filterUnread [bEx]).count bEx = [bEx].count bEx :=
  (filterUnread_exact [bEx]).2.2 bEx rfl

/-- C8: filterUnread is idempotent. -/
theorem filterUnread_idempotent (l : List Bookmark) :
    filterUnread (filterUnread l) = filterUnread l := by
  apply List.filter_eq_self.mpr
  intro b hb
  exact (List.mem_filter.mp hb).2

/-- C7: for every stored bookmark list, the badge text is the decimal
string of the unread count when it is positive and the empty string when
it is zero, and the badge background color is always "#000". -/
theorem updateBadgeCount_spec (l : List Bookmark) :
    ((filterUnread l).length > 0 →
      (updateBadgeCount l).text = toString (filterUnread l).length) ∧
    ((filterUnread l).length = 0 → (updateBadgeCount l).text = "") ∧
    (updateBadgeCount l).color = "#000" := by
  unfold updateBadgeCount
  refine ⟨fun h => ?_, fun h => ?_, rfl⟩
  · simp only [if_pos h]
  · simp only [h]
    rfl

/-- Witness for C7 at a nonzero and a zero unread count. -/
theorem updateBadgeCount_spec_witness :
    (updateBadgeCount [bEx]).text = toString (filterUnread [bEx]).length ∧
    (updateBadgeCount []).text = "" ∧
    (updateBadgeCount []).color = "#000" :=
  ⟨(updateBadgeCount_spec [bEx]).1 (by decide),
   (updateBadgeCount_spec []).2.1 rfl,
   (updateBadgeCount_spec []).2.2⟩

/-- C4: when the stored timestamp equals the remote one, shouldFetchNew
returns false, writes the timestamp key zero times, and leaves the store,
hence both stored keys, unchanged. -/
theorem shouldFetchNew_equal_no_mutation (t : String) (store : Store)
    (h : store.pinboardUpdated = some t) :
    shouldFetchNew t store = (false, store, 0) ∧
    (shouldFetchNew t store).2.1.pinboard = store.pinboard ∧
    (shouldFetchNew t store).2.1.pinboardUpdated = store.pinboardUpdated := by
  have hc : ¬ (store.pinboardUpdated ≠ some t) := by simp [h]
  have he : shouldFetchNew t store = (false, store, 0) := by
    unfold shouldFetchNew
    rw [if_neg hc]
  exact ⟨he, by rw [he], by rw [he]⟩

/-- Witness for C4 at a concrete store. -/
theorem shouldFetchNew_equal_no_mutation_witness :
    shouldFetchNew "t0" stEx = (false, stEx, 0) ∧
    (shouldFetchNew "t0" stEx).2.1.pinboard = stEx.pinboard ∧
    (shouldFetchNew "t0" stEx).2.1.pinboardUpdated = stEx.pinboardUpdated :=
  shouldFetchNew_equal_no_mutation "t0" stEx rfl

/-- C3: when the stored and remote timestamps differ, shouldFetchNew
returns true and writes the remote timestamp to the stored key exactly
once; and whatever fetchNew then does (runs and succeeds, or rejects),
the store after updateData carries that timestamp. -/
theorem shouldFetchNew_differ_writes_once (oldT newT : String)
    (store : Store) (outcome : FetchOutcome)
    (h1 : store.pinboardUpdated = some oldT) (h2 : oldT ≠ newT) :
    shouldFetchNew newT store =
      (true, { store with pinboardUpdated := some newT }, 1) ∧
    (resultingStore (updateData newT outcome store)).pinboardUpdated =
      some newT := by
  have hne : store.pinboardUpdated ≠ some newT := by
    rw [h1]
    intro hc
    exact h2 (Option.some.inj hc)
  have hs : shouldFetchNew newT store =
      (true, { store with pinboardUpdated := some newT }, 1) := by
    unfold shouldFetchNew
    rw [if_pos hne]
  refine ⟨hs, ?_⟩
  unfold updateData
  rw [hs]
  cases outcome <;> rfl

/-- Witness for C3 at a concrete store and a failing refetch. -/
theorem shouldFetchNew_differ_writes_once_witness :
    shouldFetchNew "t1" stEx =
      (true, { stEx with pinboardUpdated := some "t1" }, 1) ∧
    (resultingStore (updateData "t1" FetchOutcome.failure stEx)).pinboardUpdated =
      some "t1" :=
  shouldFetchNew_differ_writes_once "t0" "t1" stEx FetchOutcome.failure rfl
    (by decide)

/-- C1 (recording the code bug): with a single non-"done" response code,
markBookmarksRead rejects, yet the stored bookmark list is replaced by the
fully marked clone; the pre-call state `some [bEx]` is lost.  The
`reject(...)` in `eventPage.ts` is not followed by a return, so the code
falls through to the local update; the earlier revision modelled by
markBookmarksRead0 keeps the store unchanged there. -/
theorem markBookmarksRead_failure_updates_store :
    markBookmarksRead ["error"] [bEx] [bEx] stEx =
      (false,
       { pinboard := some [{ bEx with toread := "no" }],
         pinboardUpdated := some "t0" },
       [bEx]) ∧
    stEx.pinboard = some [bEx] ∧
    some [{ bEx with toread := "no" }] ≠ stEx.pinboard ∧
    markBookmarksRead0 ["error"] [bEx] [bEx] stEx = (false, stEx) := by
  decide

/-- C2 counterexample: with two bookmarks that share a description, only
the second of which is selected, markBookmarksRead resolves successfully
but the stored list still shows the selected bookmark as unread, and the
unselected first bookmark was changed instead. -/
theorem markBookmarksRead_duplicate_description_cex :
    markBookmarksRead ["done"] [bDup1, bDup2] [bDup2] stDup =
      (true,
       { stDup with
           pinboard := some [{ bDup1 with toread := "no" }, bDup2] },
       [bDup2]) ∧
    bDup2 ∈ ([bDup2] : List Bookmark) ∧
    bDup2.toread = "yes" ∧
    bDup1 ∉ ([bDup2] : List Bookmark) ∧
    { bDup1 with toread := "no" } ≠ bDup1 := by
  decide

/-- C2 as amended: for every bookmark list B whose descriptions are
pairwise distinct and every selected subset S of B, when all remote calls
report "done", markBookmarksRead resolves and stores B with exactly the
entries matching a description of S flipped to "no"; every bookmark of S
is flipped and every bookmark of B not in S is left unchanged. -/
theorem markBookmarksRead_success_spec (B S : List Bookmark)
    (responses : List String) (store : Store)
    (hsub : ∀ s ∈ S, s ∈ B)
    (hn : (B.map Bookmark.description).Nodup)
    (hresp : ∀ r ∈ responses, r = "done") :
    markBookmarksRead responses B S store =
      (true,
       { store with
           pinboard :=
             some (B.map (markedIfSelected (S.map Bookmark.description))) },
       S) ∧
    (∀ s ∈ S, markedIfSelected (S.map Bookmark.description) s =
      { s with toread := "no" }) ∧
    (∀ b ∈ B, b ∉ S →
      markedIfSelected (S.map Bookmark.description) b = b) := by
  have hmem : ∀ s ∈ S, s.description ∈ B.map Bookmark.description :=
    fun s hs => List.mem_map_of_mem Bookmark.description (hsub s hs)
  refine ⟨markBookmarksRead_done B S responses store hmem hn hresp, ?_, ?_⟩
  · intro s hs
    unfold markedIfSelected
    rw [if_pos (List.mem_map_of_mem Bookmark.description hs)]
  · intro b hb hbn
    unfold markedIfSelected
    rw [if_neg]
    intro hc
    rcases List.mem_map.mp hc with ⟨s, hsS, hsd⟩
    have heq : s = b := List.inj_on_of_nodup_map hn (hsub s hsS) hb hsd
    exact hbn (heq ▸ hsS)

/-- Witness for C2 as amended, at a two-element list with distinct
descriptions. -/
theorem markBookmarksRead_success_spec_witness :
    markBookmarksRead ["done"] [bEx, bDup1] [bDup1] stEx =
      (true,
       { stEx with pinboard := some [bEx, { bDup1 with toread := "no" }] },
       [bDup1]) := by
  have h := (markBookmarksRead_success_spec [bEx, bDup1] [bDup1] ["done"]
    stEx (by decide) (by decide) (by decide)).1
  rw [h]
  decide

/-- C9: when the `pinboard` key has never been written, getLocalBookmarks
resolves with `none` (undefined), not with an empty list; updateBadgeCount
then faults at the filter step, and so does handleClick when no refetch
intervenes; under the precondition that the key holds a list, the filter
application inside updateBadgeCount is well-defined, and handleClick never
faults. -/
theorem getLocalBookmarks_missing_spec (store : Store) (t : String)
    (hnone : store.pinboard = none) :
    getLocalBookmarks store = none ∧
    (∀ l : List Bookmark, getLocalBookmarks store ≠ some l) ∧
    updateBadgeCountRun store = none ∧
    (store.pinboardUpdated = some t →
      ∀ outcome responses, handleClick t outcome responses store = none) ∧
    (∀ (s2 : Store) (l : List Bookmark), s2.pinboard = some l →
      updateBadgeCountRun s2 = some (updateBadgeCount l)) ∧
    (∀ (s2 : Store) (l : List Bookmark), s2.pinboard = some l →
      ∀ (t2 : String) (outcome : FetchOutcome) (responses : List String),
        handleClick t2 outcome responses s2 ≠ none) := by
  refine ⟨?_, ?_, ?_, ?_, ?_, ?_⟩
  · rw [getLocalBookmarks, hnone]
  · intro l
    rw [getLocalBookmarks, hnone]
    simp
  · rw [updateBadgeCountRun, getLocalBookmarks, hnone]
    rfl
  · intro ht outcome responses
    have hs : shouldFetchNew t store = (false, store, 0) := by
      unfold shouldFetchNew
      rw [if_neg (by simp [ht])]
    have hud : updateData t outcome store = .ok store := by
      unfold updateData
      rw [hs]
    simp only [handleClick, hud, hnone]
  · intro s2 l h
    rw [updateBadgeCountRun, getLocalBookmarks, h]
    rfl
  · intro s2 l h t2 outcome responses
    cases hud : updateData t2 outcome s2 with
    | error st => simp [handleClick, hud]
    | ok st1 =>
      have hpin : ∃ d, st1.pinboard = some d := by
        unfold updateData shouldFetchNew at hud
        by_cases hc : s2.pinboardUpdated ≠ some t2
        · rw [if_pos hc] at hud
          have hud2 : fetchNew outcome
              { s2 with pinboardUpdated := some t2 } = .ok st1 := hud
          cases outcome with
          | success data =>
            simp only [fetchNew, Except.ok.injEq] at hud2
            exact ⟨data, by rw [← hud2]⟩
          | failure => simp [fetchNew] at hud2
        · rw [if_neg hc] at hud
          have hud2 : (Except.ok s2 : Except Store Store) = .ok st1 := hud
          have hst : s2 = st1 := by
            injection hud2
          exact ⟨l, by rw [← hst, h]⟩
      obtain ⟨d, hd⟩ := hpin
      simp only [handleClick, hud, hd]
      split <;> simp

/-- Witness for C9 at a store with an unset `pinboard` key. -/
theorem getLocalBookmarks_missing_spec_witness :
    getLocalBookmarks stNone = none ∧
    updateBadgeCountRun stNone = none ∧
    handleClick "t0" FetchOutcome.failure [] stNone = none := by
  have h := getLocalBookmarks_missing_spec stNone "t0" rfl
  exact ⟨h.1, h.2.2.1, h.2.2.2.1 rfl FetchOutcome.failure []⟩

/-- C6 counterexample: a 15-bookmark cached list with 12 unread, no
refetch needed and all mark-read calls succeeding, in which one selected
unread bookmark shares its description with an earlier already-read entry:
the invocation opens 10 tabs and issues 10 calls, but leaves 3 bookmarks
unread instead of the claimed 2 (the duplicated-description selection was
not flipped). -/
theorem handleClick_scenario_cex :
    list15dup.length = 15 ∧
    (filterUnread list15dup).length = 12 ∧
    (handleClick "t0" FetchOutcome.failure (List.replicate 10 "done")
        store15dup).map
      (fun r => (r.resolved, r.tabsOpened.length, r.markReadCalls.length,
                 (filterUnread (r.store.pinboard.getD [])).length)) =
      some (true, 10, 10, 3) ∧
    (3 : Nat) ≠ 2 := by
  decide

/-- C6 as amended: for every cached list of 15 bookmarks with pairwise
distinct descriptions of which 12 are unread, with no refetch needed and
all mark-read calls succeeding, handleClick opens exactly 10 tabs (the
first 10 unread in list order), issues exactly 10 mark-read calls for
those bookmarks, and leaves unread exactly the dropped tail: the 11th and
12th unread bookmarks. -/
theorem handleClick_scenario_spec (B : List Bookmark) (t : String)
    (outcome : FetchOutcome) (responses : List String) (store : Store)
    (hpin : store.pinboard = some B)
    (ht : store.pinboardUpdated = some t)
    (hlen : B.length = 15)
    (hunread : (filterUnread B).length = 12)
    (hn : (B.map Bookmark.description).Nodup)
    (hresp : ∀ r ∈ responses, r = "done") :
    handleClick t outcome responses store =
      some { notifications := [Notification.openingTabs 10],
             tabsOpened := ((filterUnread B).take 10).map Bookmark.href,
             markReadCalls := (filterUnread B).take 10,
             resolved := true,
             store :=
               { store with
                   pinboard := some (B.map (markedIfSelected
                     (((filterUnread B).take 10).map Bookmark.description))) } } ∧
    ((filterUnread B).take 10).length = 10 ∧
    (((filterUnread B).take 10).map Bookmark.href).length = 10 ∧
    filterUnread (B.map (markedIfSelected
      (((filterUnread B).take 10).map Bookmark.description))) =
      (filterUnread B).drop 10 ∧
    ((filterUnread B).drop 10).length = 2 := by
  have hs : shouldFetchNew t store = (false, store, 0) := by
    unfold shouldFetchNew
    rw [if_neg (by simp [ht])]
  have hud : updateData t outcome store = .ok store := by
    unfold updateData
    rw [hs]
  have htake : ((filterUnread B).take 10).length = 10 := by
    rw [List.length_take, hunread]
    decide
  have hne : ¬ ((filterUnread B).length = 0) := by
    rw [hunread]
    decide
  have hmem : ∀ s ∈ (filterUnread B).take 10,
      s.description ∈ B.map Bookmark.description := by
    intro s hsT
    exact List.mem_map_of_mem Bookmark.description
      ((List.mem_filter.mp (List.mem_of_mem_take hsT)).1)
  have hmbr := markBookmarksRead_done B ((filterUnread B).take 10)
    responses store hmem hn hresp
  refine ⟨?_, htake, ?_, filterUnread_marked B 10 hn, ?_⟩
  · simp only [handleClick, hud, hpin, TAB_COUNT]
    rw [if_neg hne, hmbr, htake]
  · rw [List.length_map]
    exact htake
  · rw [List.length_drop, hunread]

/-- Witness for C6 as amended, at a concrete 15-element list. -/
theorem handleClick_scenario_spec_witness :
    (handleClick "t0" FetchOutcome.failure (List.replicate 10 "done")
        store15).map
      (fun r => (r.resolved, r.tabsOpened.length, r.markReadCalls.length,
                 (filterUnread (r.store.pinboard.getD [])).length)) =
      some (true, 10, 10, 2) := by
  have h := handleClick_scenario_spec list15 "t0" FetchOutcome.failure
    (List.replicate 10 "done") store15 rfl rfl (by decide) (by decide)
    (by decide) (by decide)
  rw [h.1]
  decide

/-- Setting one cell leaves every other cell unchanged. -/
theorem getD_set_of_ne {α : Type} (l : List α) (j i : Nat) (a d : α)
    (h : i ≠ j) : (l.set j a).getD i d = l.getD i d := by
  induction l generalizing i j with
  | nil => rfl
  | cons x xs ih =>
    cases j with
    | zero =>
      cases i with
      | zero => exact absurd rfl h
      | succ i => rfl
    | succ j =>
      cases i with
      | zero => rfl
      | succ i => exact ih j i (fun hh => h (by simp [hh]))

/-- Reading below the length of the left list ignores an appended tail. -/
theorem getD_append_of_lt {α : Type} (l l' : List α) (n : Nat) (d : α)
    (h : n < l.length) : (l ++ l').getD n d = l.getD n d := by
  induction l generalizing n with
  | nil => simp at h
  | cons x xs ih =>
    cases n with
    | zero => rfl
    | succ n => exact ih n (Nat.lt_of_succ_lt_succ h)

/-- findRefByDescription returns one of the given references. -/
theorem findRefByDescription_mem {objs : List Bookmark} {refs : List Nat}
    {d : String} {r : Nat} (h : findRefByDescription objs refs d = some r) :
    r ∈ refs := by
  induction refs with
  | nil => simp [findRefByDescription] at h
  | cons r0 rs ih =>
    unfold findRefByDescription at h
    split at h
    · have heq := Option.some.inj h
      rw [← heq]
      exact List.mem_cons_self r0 rs
    · exact List.mem_cons_of_mem r0 (ih h)

/-- The marking loop writes only to the clone references: every object
cell below the old heap length is untouched. -/
theorem markLoop_preserves (copyRefs : List Nat) (n : Nat)
    (hcr : ∀ c ∈ copyRefs, n ≤ c) :
    ∀ (rest : List Nat) (objs : List Bookmark) (i : Nat), i < n →
      ((markLoop copyRefs objs rest).1).getD i defaultBookmark =
        objs.getD i defaultBookmark := by
  intro rest
  induction rest with
  | nil =>
    intro objs i hi
    rfl
  | cons rb rs ih =>
    intro objs i hi
    cases hf : findRefByDescription objs copyRefs
        ((objs.getD rb defaultBookmark).description) with
    | none =>
      have hm : markLoop copyRefs objs (rb :: rs) = (objs, false) := by
        have hdef : markLoop copyRefs objs (rb :: rs) =
            (match findRefByDescription objs copyRefs
                ((objs.getD rb defaultBookmark).description) with
             | some r =>
               markLoop copyRefs
                 (objs.set r
                   { objs.getD r defaultBookmark with toread := "no" }) rs
             | none => (objs, false)) := rfl
        rw [hdef, hf]
      rw [hm]
    | some r =>
      have hrmem : r ∈ copyRefs := findRefByDescription_mem hf
      have hstep : markLoop copyRefs objs (rb :: rs) =
          markLoop copyRefs
            (objs.set r { objs.getD r defaultBookmark with toread := "no" })
            rs := by
        have hdef : markLoop copyRefs objs (rb :: rs) =
            (match findRefByDescription objs copyRefs
                ((objs.getD rb defaultBookmark).description) with
             | some r =>
               markLoop copyRefs
                 (objs.set r
                   { objs.getD r defaultBookmark with toread := "no" }) rs
             | none => (objs, false)) := rfl
        rw [hdef, hf]
      rw [hstep, ih _ i hi]
      exact getD_set_of_ne _ r i _ _
        (Nat.ne_of_lt (Nat.lt_of_lt_of_le hi (hcr r hrmem)))

/-- C10: markBookmarksRead operates on a deep clone of the bookmarks
array, so neither argument array nor any bookmark object they reference is
changed by the call, whether it resolves or rejects. -/
theorem markBookmarksRead_preserves_arguments (responses : List String)
    (bArr rArr : Nat) (h : JSHeap) (store : Store)
    (hb : bArr < h.arrays.length) (hr : rArr < h.arrays.length)
    (hbo : ∀ r ∈ h.readArr bArr, r < h.objects.length)
    (hro : ∀ r ∈ h.readArr rArr, r < h.objects.length) :
    (markBookmarksReadHeap responses bArr rArr h store).2.1.readArr bArr =
      h.readArr bArr ∧
    (markBookmarksReadHeap responses bArr rArr h store).2.1.readArr rArr =
      h.readArr rArr ∧
    (∀ r ∈ h.readArr bArr,
      (markBookmarksReadHeap responses bArr rArr h store).2.1.readObj r =
        h.readObj r) ∧
    (∀ r ∈ h.readArr rArr,
      (markBookmarksReadHeap responses bArr rArr h store).2.1.readObj r =
        h.readObj r) := by
  have hheap : (markBookmarksReadHeap responses bArr rArr h store).2.1 =
      { objects :=
          (markLoop (List.range' h.objects.length (h.readArr bArr).length)
            (h.objects ++
              (h.readArr bArr).map (fun r => h.objects.getD r defaultBookmark))
            (h.readArr rArr)).1,
        arrays := h.arrays ++
          [List.range' h.objects.length (h.readArr bArr).length] } := rfl
  have hcr : ∀ c ∈ List.range' h.objects.length (h.readArr bArr).length,
      h.objects.length ≤ c :=
    fun c hc => (List.mem_range'_1.mp hc).1
  have hobj : ∀ r : Nat, r < h.objects.length →
      (markBookmarksReadHeap responses bArr rArr h store).2.1.readObj r =
        h.readObj r := by
    intro r hrlt
    rw [hheap]
    show (markLoop _ _ _).1.getD r defaultBookmark =
      h.objects.getD r defaultBookmark
    rw [markLoop_preserves _ h.objects.length hcr _ _ r hrlt]
    exact getD_append_of_lt _ _ r defaultBookmark hrlt
  refine ⟨?_, ?_, fun r hrm => hobj r (hbo r hrm),
    fun r hrm => hobj r (hro r hrm)⟩
  · rw [hheap]
    exact getD_append_of_lt _ _ bArr [] hb
  · rw [hheap]
    exact getD_append_of_lt _ _ rArr [] hr

/-- Witness for C10 at a concrete two-object heap. -/
theorem markBookmarksRead_preserves_arguments_witness :
    (markBookmarksReadHeap ["done"] 0 1 heapEx stEx).2.1.readArr 0 =
      heapEx.readArr 0 ∧
    (markBookmarksReadHeap ["done"] 0 1 heapEx stEx).2.1.readArr 1 =
      heapEx.readArr 1 ∧
    (∀ r ∈ heapEx.readArr 0,
      (markBookmarksReadHeap ["done"] 0 1 heapEx stEx).2.1.readObj r =
        heapEx.readObj r) ∧
    (∀ r ∈ heapEx.readArr 1,
      (markBookmarksReadHeap ["done"] 0 1 heapEx stEx).2.1.readObj r =
        heapEx.readObj r) :=
  markBookmarksRead_preserves_arguments ["done"] 0 1 heapEx stEx
    (by decide) (by decide) (by decide) (by decide)
